import Mathlib

/-!
Verification development for the KitchenOps maintenance utilities
(cleaner, parser, tagger).  The Python sources are shallowly embedded:
regex matching over `\b(term1|...|termN)\b` alternations of literal terms
is modelled over lists of characters, recipe records become structures,
and the per-recipe tagging pipeline `process_single_recipe` becomes a
pure function from a rule catalog and a recipe to an updated recipe plus
a result report.
-/

namespace KitchenOps

/-- ASCII word character, the model of regex `\w` for the ASCII texts and
rule terms this system uses (`[A-Za-z0-9_]`). -/
def isWordChar (c : Char) : Bool := c.isAlphanum || c = '_'

/-- The apostrophe character, written via its code point. -/
def quoteChar : Char := Char.ofNat 39

/-- Lowercased character list of a string; models matching under `re.I`
by case-normalising both pattern and subject. -/
def lowerChars (s : String) : List Char := s.data.map Char.toLower

/-- `t` equals the slice of `text` starting at `i` (Python `text[i:i+len(t)]`). -/
def sublistAt (t text : List Char) (i : Nat) : Bool :=
  decide ((text.drop i).take t.length = t)

/-- Word status of the character at index `j` (out of range counts as
non-word, as at the ends of a regex subject). -/
def wordAt (text : List Char) (j : Nat) : Bool := isWordChar (text.getD j ' ')

/-- Regex `\b` at position `k` of `text`: the word status changes between
index `k-1` and index `k` (positions outside the text are non-word). -/
def boundary (text : List Char) (k : Nat) : Bool :=
  (decide (0 < k) && wordAt text (k - 1)) != wordAt text k

/-- One alternative `t` of a `\b(...)\b` pattern matches at position `i`:
the slice equals `t` and both enclosing `\b` assertions hold. -/
def termMatchAt (t text : List Char) (i : Nat) : Bool :=
  sublistAt t text i && boundary text i && boundary text (i + t.length)

/-- `re.search` truthiness for the alternation `ts` under `\b(...)\b`:
some alternative matches at some position. -/
def reSearch (ts : List (List Char)) (text : List Char) : Bool :=
  (List.range (text.length + 1)).any fun i => ts.any fun t => termMatchAt t text i

/-- Split a character list on `|`, the alternation separator of the rule
patterns (Python `pattern.split("|")` semantics: the empty pattern yields
one empty alternative). -/
def splitBar : List Char → List (List Char)
  | [] => [[]]
  | c :: cs =>
    let r := splitBar cs
    if c = '|' then [] :: r else (c :: r.headI) :: r.tail

/-- The alternatives of a pattern string: split on `|` and case-normalise.
All rule expressions in this system are alternations of literal terms. -/
def patternTerms (pattern : String) : List (List Char) :=
  (splitBar pattern.data).map (List.map Char.toLower)

/-- `check_match` from `kitchen_ops_tagger.py` (lines 207-215): the text
matches the inclusion alternation as a whole word and, when an exclusion
alternation is given, does not match it. -/
def check_match (text : String) (includeRegex : String)
    (excludeRegex : Option String := none) : Bool :=
  let lt := lowerChars text
  if !reSearch (patternTerms includeRegex) lt then false
  else
    match excludeRegex with
    | some ex => !reSearch (patternTerms ex) lt
    | none => true

/-!
## `re.findall` occurrence counting

Step 3 of `process_single_recipe` counts matches with
`len(re.findall(rf"\b({regex})\b", ing_text, re.I))`.  Python's engine
scans left to right; at each position it tries the alternatives in
order, takes the first one whose trailing `\b` also holds, and resumes
after the match (an empty match advances by one).
-/

/-- Length of the first alternative (in alternation order) matching at
position `i`, if any. -/
def firstTermLen (ts : List (List Char)) (text : List Char) (i : Nat) : Option Nat :=
  (ts.find? fun t => termMatchAt t text i).map List.length

/-- Fueled left-to-right non-overlapping scan counting matches of the
alternation `ts` in `text` starting at position `i`. -/
def scanHits : Nat → List (List Char) → List Char → Nat → Nat
  | 0, _, _, _ => 0
  | fuel + 1, ts, text, i =>
    if text.length < i then 0
    else
      match firstTermLen ts text i with
      | some n => 1 + scanHits fuel ts text (i + Nat.max n 1)
      | none => scanHits fuel ts text (i + 1)

/-- `len(re.findall(rf"\b({pattern})\b", text, re.I))`. -/
def countMatches (ts : List (List Char)) (text : List Char) : Nat :=
  scanHits (text.length + 2) ts text 0

/-!
## Tagger data model and pipeline

Model of `process_single_recipe` from `kitchen_ops_tagger.py`
(lines 217-298).  The five rule catalogs are runtime data (loaded from
`config/tagging.yaml` with built-in defaults), so the pipeline is
parameterised by a `Rules` value.  The remote API is modelled by the
recipe record itself: a patch replaces the record's tag, category and
tool name sets.
-/

/-- Python `"|".join(keywords)`. -/
def joinBar (keywords : List String) : String := String.intercalate "|" keywords

/-- Python `.replace("'", "''")` on a character list: every single quote
is doubled. -/
def doubleQuotesChars : List Char → List Char
  | [] => []
  | c :: cs =>
    if c = quoteChar then c :: c :: doubleQuotesChars cs else c :: doubleQuotesChars cs

/-- Python `s.replace("'", "''")`. -/
def pyReplaceQuotes (s : String) : String := String.mk (doubleQuotesChars s.data)

/-- The rule catalogs of the tagger: protein rules carry an optional
exclusion pattern; text tags, tools and the category waterfall carry
keyword lists. -/
structure Rules where
  protein : List (String × String × Option String)
  cheese : List (String × String)
  cuisine : List (String × String)
  textTags : List (String × List String)
  tools : List (String × List String)
  waterfall : List (String × List String)

/-- A recipe as the tagger sees it: name, slug, ingredients as
(food name, note) pairs, instruction step texts, and the current tag,
category and tool name sets. -/
@[ext]

structure TagRecipe where
  name : String
  slug : String
  ingredients : List (String × String)
  instructions : List String
  tags : Finset String
  cats : Finset String
  tools : Finset String
deriving DecidableEq

/-- `ing_text`: food name and note of each ingredient, space-joined. -/
def ingText (r : TagRecipe) : String :=
  String.intercalate " " (r.ingredients.map fun p => p.1 ++ " " ++ p.2)

/-- `inst_text`: instruction step texts, space-joined. -/
def instText (r : TagRecipe) : String := String.intercalate " " r.instructions

/-- `cat_text`: `f"{name} {slug}"`. -/
def catText (r : TagRecipe) : String := r.name ++ " " ++ r.slug

/-- Step 1 of `process_single_recipe`: protein rules with exclusions. -/
def proteinStep (rules : List (String × String × Option String)) (ing : String)
    (tags : Finset String) : Finset String :=
  rules.foldl (fun acc e => if check_match ing e.2.1 e.2.2 then insert e.1 acc else acc) tags

/-- Step 2: cheese rules (no exclusions). -/
def cheeseStep (rules : List (String × String)) (ing : String)
    (tags : Finset String) : Finset String :=
  rules.foldl (fun acc e => if check_match ing e.2 none then insert e.1 acc else acc) tags

/-- `MIN_CUISINE_MATCHES` (`kitchen_ops_tagger.py` line 154). -/
def MIN_CUISINE_MATCHES : Nat := 3

/-- Step 3: a cuisine fingerprint fires when the total `re.findall`
occurrence count in the ingredient text reaches `MIN_CUISINE_MATCHES`. -/
def cuisineStep (rules : List (String × String)) (ing : String)
    (tags : Finset String) : Finset String :=
  rules.foldl
    (fun acc e =>
      if MIN_CUISINE_MATCHES ≤ countMatches (patternTerms e.2) (lowerChars ing) then
        insert e.1 acc
      else acc)
    tags

/-- Step 4: text tags; the keyword chain has single quotes doubled
before matching against `cat_text`. -/
def textStep (rules : List (String × List String)) (cat : String)
    (tags : Finset String) : Finset String :=
  rules.foldl
    (fun acc e =>
      if check_match cat (pyReplaceQuotes (joinBar e.2)) none then insert e.1 acc else acc)
    tags

/-- Step 5: tool rules against the instruction text. -/
def toolStep (rules : List (String × List String)) (inst : String)
    (tools : Finset String) : Finset String :=
  rules.foldl
    (fun acc e => if check_match inst (joinBar e.2) none then insert e.1 acc else acc)
    tools

/-- Step 6: the category waterfall loop — return the first rule whose
(quote-doubled) keyword chain matches `cat_text`, stopping at the first
hit exactly as the `break` does. -/
def waterfallFirst (rules : List (String × List String)) (cat : String) : Option String :=
  match rules with
  | [] => none
  | e :: rest =>
    if check_match cat (pyReplaceQuotes (joinBar e.2)) none then some e.1
    else waterfallFirst rest cat

/-- Per-recipe report mirroring the `result` dict: the added name sets
and whether a patch request was issued. -/
structure TagResult where
  tags_added : Finset String
  cats_added : Finset String
  tools_added : Finset String
  patched : Bool
deriving DecidableEq

/-- Steps 1-4 composed: the tag set after the protein, cheese, cuisine
and text-tag phases, starting from the recipe's current tags. -/
def tagSteps (rules : Rules) (ing cat : String) (tags : Finset String) : Finset String :=
  textStep rules.textTags cat
    (cuisineStep rules.cuisine ing
      (cheeseStep rules.cheese ing (proteinStep rules.protein ing tags)))

/-- Step 6: the waterfall runs only when the current category set is
empty, and then adds the first matching rule's category, if any. -/
def catsStep (rules : Rules) (cat : String) (cats : Finset String) : Finset String :=
  if cats = ∅ then
    match waterfallFirst rules.waterfall cat with
    | some c => {c}
    | none => (∅ : Finset String)
  else cats

/-- `process_single_recipe` (lines 217-298) as a pure function: compute
the new tag/category/tool sets from the rule catalogs, report the
differences, and issue a patch (modelled as updating the record) iff
some set changed and dry-run mode is off. -/
def process_single_recipe (rules : Rules) (dryRun : Bool) (r : TagRecipe) :
    TagRecipe × TagResult :=
  let newTags := tagSteps rules (ingText r) (catText r) r.tags
  let newTools := toolStep rules.tools (instText r) r.tools
  let newCats := catsStep rules (catText r) r.cats
  let changed := newTags ≠ r.tags ∨ newCats ≠ r.cats ∨ newTools ≠ r.tools
  let doPatch := decide changed && !dryRun
  let r' := if doPatch then { r with tags := newTags, cats := newCats, tools := newTools } else r
  (r', { tags_added := newTags \ r.tags
         cats_added := newCats \ r.cats
         tools_added := newTools \ r.tools
         patched := doPatch })

/-- `DEFAULT_CHEESE` (`kitchen_ops_tagger.py` lines 47-53). -/
def DEFAULT_CHEESE : List (String × String) := [
  ("Sharp & Aged", "cheddar|parmesan|pecorino|manchego|asiago|gruyere|comte|aged gouda"),
  ("Soft & Creamy", "mozzarella|burrata|ricotta|brie|camembert|goat cheese|chèvre|cream cheese|mascarpone|neufchatel"),
  ("Blue & Funky", "gorgonzola|roquefort|stilton|blue cheese|taleggio|danablu"),
  ("Fresh & Curd", "paneer|chenna|khoya|feta|halloumi|cotija|queso fresco|cheese curds"),
  ("Melting Cheese", "provolone|fontina|monterey jack|muenster|gouda|swiss|raclette|havarti|edam|jarlsberg")
]

/-- `DEFAULT_PROTEIN` (lines 55-64): name, inclusion regex, exclusion regex. -/
def DEFAULT_PROTEIN : List (String × String × Option String) := [
  ("Chicken", "chicken|chicken wing|drumstick|chicken thigh|chicken breast|poultry|cornish hen", some "broth|stock|bouillon|chickpea"),
  ("Beef", "beef|steak|hamburger|ground beef|ribeye|sirloin|brisket|chuck roast|filet mignon|short rib|flank steak|ground meat", some "broth|stock|bouillon|beef leaf"),
  ("Pork", "pork|bacon|ham hock|ham steak|sausage|pork tenderloin|chorizo|prosciutto|pancetta|guanciale|salami|pork belly|pork chop|pork loin|spare rib|pork shoulder", some "turkey|chicken|hamburger"),
  ("Seafood", "shrimp|salmon|tuna|cod fish|cod fillet|lobster|scallop|mussel|clam|fish|prawn|crab|squid|octopus|anchovy|sardine|tilapia|mahi mahi|halibut|swordfish|trout", some "sauce|stock|fish sauce"),
  ("Lamb/Goat", "lamb|mutton|goat cheese|gyro|merguez", some "goat cheese|lettuce"),
  ("Game Meat", "venison|duck|bison|rabbit|quail|goose|elk|pheasant", some "sauce|duck sauce"),
  ("Egg", "egg|eggs|huevos", some "plant|noodle"),
  ("Vegetarian Protein", "tofu|tempeh|seitan|lentil|chickpea|black bean|kidney bean|cannellini|edamame|soy curl", some "pork|beef|chicken")
]

/-- `DEFAULT_CUISINE` (lines 66-95). -/
def DEFAULT_CUISINE : List (String × String) := [
  ("Chinese (Cantonese)", "oyster sauce|hoisin|shaoxing|char siu|lap cheong|wonton|five spice"),
  ("Chinese (Sichuan)", "sichuan pepper|doubanjiang|chili oil|mala|dried chili|black vinegar|facing heaven pepper"),
  ("Japanese", "miso|mirin|dashi|sake|nori|wasabi|furikake|panko|bonito|kombu|shoyu|katsu"),
  ("Korean", "gochujang|gochugaru|kimchi|doenjang|rice cake|perilla leaf|bulgogi|japchae"),
  ("Thai", "fish sauce|curry paste|thai basil|kaffir lime|bird\x27s eye chili|nam pla|pad thai"),
  ("Vietnamese", "fish sauce|star anise|pho|rice paper|vermicelli|nuoc cham|banh mi"),
  ("Indonesian / Malaysian", "kecap manis|galangal|sambal|shrimp paste|kaffir lime|turmeric leaf|rendang|nasi"),
  ("Filipino", "calamansi|cane vinegar|banana ketchup|ube|bagoong|lumpia|adobo"),
  ("Indian", "garam masala|paneer|ghee|fenugreek|makhani|tandoori|kashmiri chili|amchur|curry leaf|mustard seed|asafoetida|hing|sambar|rasam|urad dal|appam|puttu"),
  ("Pakistani", "nihari|karahi|shan masala|chapli|haleem|biryani masala"),
  ("Mexican", "corn tortilla|masa|tomatillo|poblano|cotija|epazote|pepita|mole|queso fresco|guajillo|ancho chili"),
  ("Tex-Mex", "flour tortilla|fajita seasoning|fajita|nacho|queso|taco seasoning|refried beans"),
  ("Peruvian", "aji amarillo|aji panca|quinoa|ceviche|pisco|huacatay|rocoto"),
  ("Brazilian", "dende oil|cassava flour|farofa|cachaca|guarana|tucupi|pao de queijo"),
  ("US Southern", "buttermilk|collard greens|cornmeal|grits|okra|bacon grease|cajun|creole|andouille|remoulade"),
  ("Caribbean", "scotch bonnet|jerk seasoning|jerk|plantain|callaloo|allspice|ackee|sorrel"),
  ("Italian", "pecorino|parmesan|risotto|polenta|balsamic|prosciutto|gorgonzola|truffle|pancetta|nduja|focaccia|pesto"),
  ("French", "herbes de provence|dijon|tarragon|cognac|gruyere|creme fraiche|bouquet garni|fleur de sel"),
  ("Spanish", "saffron|chorizo|manchego|sherry|paella|iberico|pimenton|romesco"),
  ("Greek", "feta|kalamata|phyllo|halloumi|tzatziki|oregano|greek yogurt"),
  ("German", "sauerkraut|bratwurst|caraway|schnitzel|spaetzle|pretzel|juniper berry"),
  ("British / Irish", "malt vinegar|english mustard|worcestershire|stilton|golden syrup|stout|guinness|clotted cream|marmite"),
  ("Eastern European", "pierogi|kielbasa|sauerkraut|poppy seed|borscht|kvass"),
  ("Levantine (Middle Eastern)", "tahini|za\x27atar|sumac|bulgur|pomegranate molasses|halva|labneh|freekeh"),
  ("Persian (Iranian)", "rose water|barberry|dried lime|pomegranate molasses|tahdig|saffron|zereshk"),
  ("North African (Maghreb)", "preserved lemon|ras el hanout|tagine|harissa|merguez|chermoula"),
  ("East African (Ethiopian)", "berbere|niter kibbeh|injera|teff|mitmita|awaze"),
  ("West African", "scotch bonnet|egusi|fufu|jollof|red palm oil|suya|dawadawa")
]

/-- `DEFAULT_TEXT` (lines 97-107). -/
def DEFAULT_TEXT : List (String × List String) := [
  ("Extra Spicy", ["extra spicy", "insane heat", "ghost pepper", "habanero", "thai chili", "bird\x27s eye", "scotch bonnet", "carolina reaper", "vindaloo", "phaal"]),
  ("Spicy", ["spicy", "jalapeno", "hot sauce", "sriracha", "chili flakes", "serrano", "cayenne", "gochujang", "harissa", "sambal", "peri peri"]),
  ("Comfort Food", ["mac and cheese", "casserole", "meatloaf", "gravy", "pot pie", "stew", "grilled cheese"]),
  ("One Pot", ["one pot", "sheet pan", "skillet dinner", "dutch oven"]),
  ("Project Meal", ["sourdough", "ferment", "cure", "smoke", "braise", "confit", "mole"]),
  ("Vegan", ["vegan", "plant based", "plant-based"]),
  ("Keto", ["keto", "ketogenic", "low carb", "low-carb"]),
  ("Gluten Free", ["gluten free", "gluten-free", "gf"]),
  ("Paleo", ["paleo", "whole30"])
]

/-- `DEFAULT_TOOLS` (lines 109-118). -/
def DEFAULT_TOOLS : List (String × List String) := [
  ("Air Fryer", ["air fryer", "air-fryer", "airfryer"]),
  ("Instant Pot", ["instant pot", "pressure cooker", "multicooker"]),
  ("Slow Cooker", ["slow cooker", "crock pot"]),
  ("Dutch Oven", ["dutch oven", "le creuset"]),
  ("Wok", ["wok"]),
  ("Cast Iron", ["cast iron", "skillet"]),
  ("Smoker / Grill", ["smoker", "traeger", "charcoal", "grill", "big green egg"]),
  ("Sous Vide", ["sous vide", "immersion circulator"])
]

/-- `DEFAULT_CATEGORIES` (lines 120-131), the ordered waterfall. -/
def DEFAULT_CATEGORIES : List (String × List String) := [
  ("Beverage", ["smoothie", "shake", "latte", "lemonade", "lassi", "punch", "tea", "coffee", "cider", "cocoa", "soda", "limeade", "agua fresca", "julius", "frappe", "chai", "milkshake", "mocha", "cold brew", "cappuccino", "espresso", "macchiato", "cocktail", "mocktail", "margarita", "martini", "mojito", "sangria", "piña colada", "mimosa", "shot", "julep", "bellini", "irish cream", "drunken", "slushie", "spritzer", "fizz", "sour", "collins", "toddy", "old fashioned", "negroni", "daiquiri", "buttermilk", "sambaram"]),
  ("Condiment", ["sauce", "rub", "marinade", "pesto", "dressing", "dip", "hummus", "salsa", "jam", "jelly", "pickle", "syrup", "chutney", "relish", "vinaigrette", "glaze", "reduction", "compote", "curd", "butter", "oil", "spice mix", "seasoning", "paste", "spread", "mayonnaise", "ketchup", "mustard", "bbq sauce", "aioli", "remoulade", "sriracha", "gochujang", "harissa"]),
  ("Dessert", ["dessert", "cake", "cookie", "brownie", "fudge", "ice cream", "pudding", "pie", "tart", "sorbet", "gelato", "candy", "chocolate", "truffle", "donut", "doughnut", "shortcake", "cheesecake", "pastry", "postre", "dulce", "galleta", "helado", "paleta", "cinnabunny", "cinnamon roll", "toffee", "pop", "popsicle", "burfi", "jalebi", "sandesh", "sondesh", "panjeeri", "panjiri", "sheera", "caramel", "gummies", "apple dumpling", "crisp", "bunuelos", "tamales dulces", "gelatina", "pay de calabaza", "creamsicle", "mousse", "parfait", "scone", "biscotti", "cobbler", "buckeye", "blondie", "cupcake", "macaron", "meringue", "pavlova", "trifle", "turnover", "strudel", "ambrosia", "kheer", "halwa", "ladoo", "gulab jamun"]),
  ("Breakfast", ["pancake", "waffle", "oats", "oatmeal", "breakfast", "omelet", "scramble", "french toast", "granola", "cereal", "crepe", "hot cake", "muesli", "bagel", "benedict", "hash", "frittata", "quiche", "huevos rancheros", "shakshuka", "idli", "dosa", "vada", "uttapam", "appam", "puttu", "idi appam", "upma"]),
  ("Snack", ["snack", "bite", "energy bite", "energy ball", "pecan", "nut", "mix", "chestnut", "cottage cheese", "bistro box", "popcorn", "chips", "cracker", "dip", "chex mix", "trail mix", "granola bar", "jerky", "deviled egg", "nacho", "finger food", "appetizer", "murukku", "samosa", "pakora"]),
  ("Bread", ["bread", "loaf", "roll", "bun", "baguette", "ciabatta", "focaccia", "sourdough", "flatbread", "pita", "toast", "muffin", "pretzel", "breadstick", "mollete", "naan", "tortilla", "biscuit", "roti", "chapati", "paratha", "kulcha", "pav"]),
  ("Soup", ["soup", "stew", "chowder", "chili", "bisque", "pozole", "ramen", "pho", "stock", "broth", "gazpacho", "consumme", "minestrone", "gumbo", "bouillabaisse", "vysusuoise"]),
  ("Salad", ["salad", "slaw", "coleslaw", "caesar", "caprese", "waldorf", "wedge", "cobb", "niçoise", "tabbouleh"]),
  ("Side Dish", ["side dish", "side", "fries", "wedges", "tots", "rice", "vegetable", "veggie", "corn", "bean", "succotash", "asparagus", "broccoli", "carrot", "cauliflower", "zucchini", "mushroom", "onion", "parsnip", "plantain", "grits", "stuffing", "borlotti", "eggplant", "potato", "yam", "gnocchi", "au gratin", "mash", "puree", "pilaf", "couscous", "quinoa", "thoran", "poriyal", "dal", "sambal"]),
  ("Main Course", ["chicken", "beef", "pork", "steak", "burger", "roast", "stew", "curry", "pizza", "pasta", "lasagna", "spaghetti", "fettuccine", "risotto", "casserole", "enchilada", "burrito", "taco", "fajita", "quesadilla", "meatball", "meatloaf", "ribs", "brisket", "pulled pork", "carnitas", "chop", "tenderloin", "salmon", "tuna", "cod", "halibut", "shrimp", "lobster", "crab", "fish", "tofu", "tempeh", "seitan", "stir fry", "pad thai", "lo mein", "soup", "chili", "chowder", "bisque", "pozole", "ramen", "pho", "udon", "sandwich", "wrap", "gyro", "shawarma", "kebab", "falafel", "biryani", "paella", "jambalaya", "gumbo", "etouffee", "shepherd\x27s pie", "pot pie", "london broil", "empanada", "tamale", "sushi", "sashimi", "poke bowl", "bibimbap", "bulgogi", "macaroni", "ziti", "alfredo", "carbonara", "bolognese", "stroganoff", "vindaloo", "korma", "tikka"])
]

/-- The rule catalogs actually in force when `config/tagging.yaml` is
absent: `CONFIG = {}` so every `CONFIG.get` falls back to the built-in
default (lines 172-177). -/
def defaultRules : Rules :=
  { protein := DEFAULT_PROTEIN
    cheese := DEFAULT_CHEESE
    cuisine := DEFAULT_CUISINE
    textTags := DEFAULT_TEXT
    tools := DEFAULT_TOOLS
    waterfall := DEFAULT_CATEGORIES }

/-- The tag names matched by steps 1-4 for a given ingredient text and
category text, independent of the recipe's current tags. -/
def matchedTagNames (rules : Rules) (ing cat : String) : Finset String :=
  ((rules.protein.filter fun e => check_match ing e.2.1 e.2.2).map Prod.fst).toFinset ∪
  ((rules.cheese.filter fun e => check_match ing e.2 none).map Prod.fst).toFinset ∪
  ((rules.cuisine.filter fun e =>
      decide (MIN_CUISINE_MATCHES ≤ countMatches (patternTerms e.2) (lowerChars ing))).map
    Prod.fst).toFinset ∪
  ((rules.textTags.filter fun e =>
      check_match cat (pyReplaceQuotes (joinBar e.2)) none).map Prod.fst).toFinset

/-- The tool names matched by step 5 for a given instruction text. -/
def matchedToolNames (rules : Rules) (inst : String) : Finset String :=
  ((rules.tools.filter fun e => check_match inst (joinBar e.2) none).map Prod.fst).toFinset

/-- The category assignment of the waterfall step: nothing when the
record already has categories, else the first matching rule's name. -/
def waterfallAssigned (rules : Rules) (cat : String) (cats : Finset String) : Finset String :=
  if cats = ∅ then
    match waterfallFirst rules.waterfall cat with
    | some c => {c}
    | none => (∅ : Finset String)
  else ∅

/-!
## Word-boundary matching (claims C2 and C3)
-/

/-!
## Cuisine fingerprints (claim C2)

Step 3 counts total regex-match occurrences in the joined ingredient
text — not distinct matching ingredients — and compares the count with
the hardcoded `MIN_CUISINE_MATCHES = 3`.
-/

/-- The `Japanese` fingerprint of `DEFAULT_CUISINE`, spelled out. -/
def japanesePattern : String :=
  "miso|mirin|dashi|sake|nori|wasabi|furikake|panko|bonito|kombu|shoyu|katsu"

/-- A recipe with exactly one ingredient; its food name and note repeat
the single matching term `miso` three times. -/
def recipeSingleMiso : TagRecipe :=
  { name := "Miso Bowl", slug := "miso-bowl",
    ingredients := [("miso", "miso miso")], instructions := [],
    tags := {}, cats := {}, tools := {} }

/-- A doubled apostrophe occurs somewhere in the character list. -/
def hasAdjQuotes : List Char → Bool
  | [] => false
  | [_] => false
  | a :: b :: rest => (a = quoteChar && b = quoteChar) || hasAdjQuotes (b :: rest)

/-- A small recipe whose name contains the keyword `bird's eye`
verbatim (single apostrophe). -/
def recipeBird : TagRecipe :=
  { name := "Thai Bird\x27s Eye Chili Noodles", slug := "thai-bird-s-eye-chili-noodles",
    ingredients := [], instructions := [],
    tags := {}, cats := {}, tools := {} }

/-!
## Claim C6 witness inputs
-/

/-- A two-rule waterfall for concrete checks. -/
def rulesSmall : Rules :=
  { protein := [], cheese := [], cuisine := [],
    textTags := [], tools := [],
    waterfall := [("Beverage", ["smoothie"]), ("Bread", ["bread"])] }

/-- A recipe that would match the `Bread` waterfall rule but already has
a category. -/
def recipeWithCat : TagRecipe :=
  { name := "Banana Bread", slug := "banana-bread", ingredients := [], instructions := [],
    tags := {}, cats := {"Dinner"}, tools := {} }

/-!
## Rule-catalog loading and empty inclusion expressions (claim C8)

`kitchen_ops_tagger.py` lines 156-177: `CONFIG` is the parsed
`config/tagging.yaml` (or `{}`), and each catalog is
`CONFIG.get(key, DEFAULT)`.  No entry is validated or filtered.
-/

/-- The optional rule collections a `config/tagging.yaml` file can
supply, mirroring the five `CONFIG.get` keys plus `categories`. -/
structure Config where
  cheese_types : Option (List (String × String))
  protein_tags : Option (List (String × String × Option String))
  cuisine_fingerprints : Option (List (String × String))
  text_tags : Option (List (String × List String))
  tools_matches : Option (List (String × List String))
  categories : Option (List (String × List String))

/-- Lines 172-177: every catalog falls back to its built-in default only
when the key is absent; supplied collections are taken verbatim. -/
def loadRules (cfg : Config) : Rules :=
  { protein := cfg.protein_tags.getD DEFAULT_PROTEIN
    cheese := cfg.cheese_types.getD DEFAULT_CHEESE
    cuisine := cfg.cuisine_fingerprints.getD DEFAULT_CUISINE
    textTags := cfg.text_tags.getD DEFAULT_TEXT
    tools := cfg.tools_matches.getD DEFAULT_TOOLS
    waterfall := cfg.categories.getD DEFAULT_CATEGORIES }

/-- A config whose only text-tag rule has an empty inclusion
expression. -/
def cfgEmptyRule : Config :=
  { cheese_types := some [], protein_tags := some [], cuisine_fingerprints := some [],
    text_tags := some [("Mystery", [""])], tools_matches := some [], categories := some [] }

/-- A plain recipe whose name contains word characters. -/
def recipeAbc : TagRecipe :=
  { name := "abc", slug := "abc", ingredients := [], instructions := [],
    tags := {}, cats := {"x"}, tools := {} }

/-!
## Cleaner: integrity checks and run state

Model of `kitchen_ops_cleaner.py`.  A recipe's instruction rows are
`Option String` values (`NULL` or text).  The same rows are what the
API serves as `recipeInstructions` dictionaries, so both integrity
strategies are functions of a `CleanRecipe`.
-/

/-- A recipe as the cleaner sees it. -/
structure CleanRecipe where
  slug : String
  name : String
  instructions : List (Option String)
deriving DecidableEq

/-- The possible shapes of `recipeInstructions` that
`validate_instructions` handles: absent/null, a bare string, or a list
of step objects whose `text` may be null. -/
inductive Instructions where
  | missing
  | text (s : String)
  | steps (rows : List (Option String))
deriving DecidableEq

/-- Substring occurrence (Python `pat in l`). -/
def containsSub (pat l : List Char) : Bool :=
  (List.range (l.length + 1)).any fun i => sublistAt pat l i

/-- `validate_instructions` (`kitchen_ops_cleaner.py` lines 173-189).
Python's `len(text.strip()) > 0` holds iff some character is
non-whitespace, which is how the strip test is expressed here. -/
def validate_instructions : Instructions → Bool
  | .missing => false
  | .text s =>
    if s.data.isEmpty then false
    else if !(s.data.any fun c => !c.isWhitespace) then false
    else if containsSub "could not detect".data (lowerChars s) then false
    else true
  | .steps rows =>
    if rows.isEmpty then false
    else rows.any fun t =>
      match t with
      | some s => s.data.any fun c => !c.isWhitespace
      | none => false

/-- Outcome of the per-recipe API integrity check: `None` (already
verified), a broken tuple, or a `VERIFIED` mark. -/
inductive IntegrityResult where
  | skipped
  | broken (slug name : String)
  | verifiedMark (slug : String)
deriving DecidableEq

/-- `check_integrity` (lines 192-207): skip already-verified slugs,
flag recipes whose instructions fail validation, mark the rest
verified. -/
def check_integrity (verified : Finset String) (r : CleanRecipe) : IntegrityResult :=
  if r.slug ∈ verified then .skipped
  else if validate_instructions (.steps r.instructions) then .verifiedMark r.slug
  else .broken r.slug r.name

/-- The `HAVING` clause of `check_integrity_via_db` (lines 249-256) for
one recipe: no instruction rows at all, or no row whose text is
non-null and non-empty.  Note the SQL compares with `!= ''` — it does
not strip whitespace. -/
def dbBroken (r : CleanRecipe) : Bool :=
  r.instructions.isEmpty || !(r.instructions.any fun t => !(t.getD "" == ""))

/-- `check_integrity_via_db` (lines 244-268): one query flags the
broken recipes; the returned broken list keeps only rows whose slug is
a candidate and not already verified, and everything else in
`all_slugs` is verified. -/
def check_integrity_via_db (verified : Finset String) (recs : List CleanRecipe)
    (allSlugs : Finset String) : List (String × String) × Finset String :=
  let brokenRows := recs.filter dbBroken
  let brokenSlugs := (brokenRows.map CleanRecipe.slug).toFinset
  let broken := (brokenRows.filter fun r =>
      decide (r.slug ∈ allSlugs) && !decide (r.slug ∈ verified)).map fun r => (r.slug, r.name)
  (broken, allSlugs \ brokenSlugs)

/-- A recipe whose single instruction text is one space: non-empty for
the SQL check, whitespace-only for the API check. -/
def recipeWhitespaceInst : CleanRecipe :=
  { slug := "r1", name := "R1", instructions := [some " "] }

/-!
## Cleaner run state and `delete_recipe` (claim C7)
-/

/-- The cleaner's mutable run state: the reject URL set, the verified
slug set, and the flagged-recipe report rows. -/
structure CleanerState where
  rejects : Finset String
  verified : Finset String
  flagged : List (String × String × String)
deriving DecidableEq

/-- `delete_recipe` (`kitchen_ops_cleaner.py` lines 132-153) as a state
transition.  The returned flag records whether an HTTP DELETE was
issued.  The flagged-report row is always appended; in dry-run mode the
function returns before deleting — and before the `REJECTS.add` /
`VERIFIED.discard` updates. -/
def delete_recipe (dryRun : Bool) (st : CleanerState) (slug name reason : String)
    (url : Option String) : CleanerState × Bool :=
  let st1 := { st with flagged := st.flagged ++ [(name, reason, url.getD "")] }
  if dryRun then (st1, false)
  else
    ({ st1 with
        rejects := match url with
          | some u => insert u st1.rejects
          | none => st1.rejects
        verified := st1.verified.erase slug }, true)

/-!
## Local state files (claim C9)

`load_json_set` / `save_json_set` (`kitchen_ops_cleaner.py` lines
66-83) and `load_history` / `save_history` (`kitchen_ops_parser.py`
lines 83-100) share one shape: a JSON list of strings on disk, a set of
strings in memory.  The file is modelled by its three observable
states; Python's exception handlers correspond to the `corrupt` branch,
so the functions are total — nothing raises or aborts. -/
inductive FileContent where
  | missing
  | corrupt
  | stored (items : List String)
deriving DecidableEq

/-- `load_json_set`: missing file → empty set, unparsable file → empty
set plus a warning (the returned flag), stored list → its set of
members. -/
def load_json_set : FileContent → Finset String × Bool
  | .missing => (∅, false)
  | .corrupt => (∅, true)
  | .stored items => (items.toFinset, false)

/-- `save_json_set`: the in-memory set is written as `list(data_set)`
— some enumeration of the set's elements. -/
def save_json_set (s : Finset String) : FileContent :=
  .stored (s.sort (· ≤ ·))

/-- `load_history` from the parser, same branches as `load_json_set`. -/
def load_history : FileContent → Finset String × Bool
  | .missing => (∅, false)
  | .corrupt => (∅, true)
  | .stored items => (items.toFinset, false)

/-!
## Category slug derivation (claim C5)
-/

/-- Modelled from the spec: the Category name→slug mapping of the
DB-backed tagger (`_make_slug`, exercised by `tests/test_tagger.py` but
whose defining module is not part of `src/`): lowercase the name, turn
spaces and `/` into hyphens, and expand `&` to `and`. -/
def _make_slug (name : String) : String :=
  String.mk ((name.data.map Char.toLower).flatMap fun c =>
    if c = ' ' ∨ c = '/' then ['-'] else if c = '&' then ['a', 'n', 'd'] else [c])

/-!
## Theorems
-/

/-!
## Characterisation of the fold-based phases
-/

theorem mem_foldl_insertIf {α : Type} (f : α → String) (p : α → Bool) (l : List α)
    (init : Finset String) (x : String) :
    (x ∈ l.foldl (fun acc e => if p e then insert (f e) acc else acc) init) ↔
      x ∈ init ∨ ∃ e ∈ l, p e = true ∧ f e = x := by
  induction l generalizing init with
  | nil => simp
  | cons a t ih =>
    simp only [List.foldl_cons, ih, List.mem_cons]
    by_cases h : p a = true
    · rw [if_pos h]
      simp only [Finset.mem_insert]
      constructor
      · rintro ((rfl | hx) | ⟨e, he, hp, hf⟩)
        · exact Or.inr ⟨a, Or.inl rfl, h, rfl⟩
        · exact Or.inl hx
        · exact Or.inr ⟨e, Or.inr he, hp, hf⟩
      · rintro (hx | ⟨e, (rfl | he), hp, hf⟩)
        · exact Or.inl (Or.inr hx)
        · exact Or.inl (Or.inl hf.symm)
        · exact Or.inr ⟨e, he, hp, hf⟩
    · rw [if_neg h]
      constructor
      · rintro (hx | ⟨e, he, hp, hf⟩)
        · exact Or.inl hx
        · exact Or.inr ⟨e, Or.inr he, hp, hf⟩
      · rintro (hx | ⟨e, (rfl | he), hp, hf⟩)
        · exact Or.inl hx
        · exact absurd hp h
        · exact Or.inr ⟨e, he, hp, hf⟩

theorem mem_proteinStep (l : List (String × String × Option String)) (ing : String)
    (T : Finset String) (x : String) :
    x ∈ proteinStep l ing T ↔
      x ∈ T ∨ ∃ e ∈ l, check_match ing e.2.1 e.2.2 = true ∧ e.1 = x := by
  unfold proteinStep
  exact mem_foldl_insertIf Prod.fst (fun e => check_match ing e.2.1 e.2.2) l T x

theorem mem_cheeseStep (l : List (String × String)) (ing : String)
    (T : Finset String) (x : String) :
    x ∈ cheeseStep l ing T ↔
      x ∈ T ∨ ∃ e ∈ l, check_match ing e.2 none = true ∧ e.1 = x := by
  unfold cheeseStep
  exact mem_foldl_insertIf Prod.fst (fun e => check_match ing e.2 none) l T x

theorem mem_cuisineStep (l : List (String × String)) (ing : String)
    (T : Finset String) (x : String) :
    x ∈ cuisineStep l ing T ↔
      x ∈ T ∨ ∃ e ∈ l,
        decide (MIN_CUISINE_MATCHES ≤ countMatches (patternTerms e.2) (lowerChars ing)) = true
          ∧ e.1 = x := by
  have := mem_foldl_insertIf Prod.fst
    (fun e : String × String =>
      decide (MIN_CUISINE_MATCHES ≤ countMatches (patternTerms e.2) (lowerChars ing)))
    l T x
  simpa [cuisineStep] using this

theorem mem_textStep (l : List (String × List String)) (cat : String)
    (T : Finset String) (x : String) :
    x ∈ textStep l cat T ↔
      x ∈ T ∨ ∃ e ∈ l, check_match cat (pyReplaceQuotes (joinBar e.2)) none = true ∧ e.1 = x := by
  unfold textStep
  exact mem_foldl_insertIf Prod.fst
    (fun e => check_match cat (pyReplaceQuotes (joinBar e.2)) none) l T x

theorem mem_toolStep (l : List (String × List String)) (inst : String)
    (T : Finset String) (x : String) :
    x ∈ toolStep l inst T ↔
      x ∈ T ∨ ∃ e ∈ l, check_match inst (joinBar e.2) none = true ∧ e.1 = x := by
  unfold toolStep
  exact mem_foldl_insertIf Prod.fst (fun e => check_match inst (joinBar e.2) none) l T x

theorem mem_tagSteps (rules : Rules) (ing cat : String) (T : Finset String) (x : String) :
    x ∈ tagSteps rules ing cat T ↔ x ∈ T ∨ x ∈ matchedTagNames rules ing cat := by
  simp only [tagSteps, mem_textStep, mem_cuisineStep, mem_cheeseStep, mem_proteinStep,
    matchedTagNames, Finset.mem_union, List.mem_toFinset, List.mem_map, List.mem_filter]
  constructor
  · rintro (((((h | ⟨e, he, hp, hf⟩) | ⟨e, he, hp, hf⟩) | ⟨e, he, hp, hf⟩) | ⟨e, he, hp, hf⟩))
    · exact Or.inl h
    · exact Or.inr (Or.inl (Or.inl (Or.inl ⟨e, ⟨he, hp⟩, hf⟩)))
    · exact Or.inr (Or.inl (Or.inl (Or.inr ⟨e, ⟨he, hp⟩, hf⟩)))
    · exact Or.inr (Or.inl (Or.inr ⟨e, ⟨he, hp⟩, hf⟩))
    · exact Or.inr (Or.inr ⟨e, ⟨he, hp⟩, hf⟩)
  · rintro (h | (((⟨e, ⟨he, hp⟩, hf⟩ | ⟨e, ⟨he, hp⟩, hf⟩) | ⟨e, ⟨he, hp⟩, hf⟩) | ⟨e, ⟨he, hp⟩, hf⟩))
    · exact Or.inl (Or.inl (Or.inl (Or.inl h)))
    · exact Or.inl (Or.inl (Or.inl (Or.inr ⟨e, he, hp, hf⟩)))
    · exact Or.inl (Or.inl (Or.inr ⟨e, he, hp, hf⟩))
    · exact Or.inl (Or.inr ⟨e, he, hp, hf⟩)
    · exact Or.inr ⟨e, he, hp, hf⟩

theorem tagSteps_eq_union (rules : Rules) (ing cat : String) (T : Finset String) :
    tagSteps rules ing cat T = T ∪ matchedTagNames rules ing cat := by
  ext x
  rw [mem_tagSteps, Finset.mem_union]

theorem toolStep_eq_union (rules : Rules) (inst : String) (T : Finset String) :
    toolStep rules.tools inst T = T ∪ matchedToolNames rules inst := by
  ext x
  rw [mem_toolStep, Finset.mem_union, matchedToolNames, List.mem_toFinset]
  simp [List.mem_map, List.mem_filter, and_assoc]

theorem catsStep_eq_union (rules : Rules) (cat : String) (C : Finset String) :
    catsStep rules cat C = C ∪ waterfallAssigned rules cat C := by
  by_cases h : C = ∅
  · subst h
    simp only [catsStep, waterfallAssigned, if_pos rfl, Finset.empty_union]
  · simp only [catsStep, waterfallAssigned, if_neg h, Finset.union_empty]

theorem tagSteps_idem (rules : Rules) (ing cat : String) (T : Finset String) :
    tagSteps rules ing cat (tagSteps rules ing cat T) = tagSteps rules ing cat T := by
  simp [tagSteps_eq_union, Finset.union_assoc]

theorem toolStep_idem (rules : Rules) (inst : String) (T : Finset String) :
    toolStep rules.tools inst (toolStep rules.tools inst T) = toolStep rules.tools inst T := by
  simp [toolStep_eq_union, Finset.union_assoc]

theorem catsStep_idem (rules : Rules) (cat : String) (C : Finset String) :
    catsStep rules cat (catsStep rules cat C) = catsStep rules cat C := by
  by_cases h : C = ∅
  · subst h
    simp only [catsStep, if_pos rfl]
    cases hw : waterfallFirst rules.waterfall cat with
    | none => simp
    | some c => simp [Finset.singleton_ne_empty]
  · simp [catsStep, if_neg h]

/-!
## Behaviour of `process_single_recipe`
-/

theorem process_texts_preserved (rules : Rules) (dryRun : Bool) (r : TagRecipe) :
    (process_single_recipe rules dryRun r).1.name = r.name ∧
    (process_single_recipe rules dryRun r).1.slug = r.slug ∧
    (process_single_recipe rules dryRun r).1.ingredients = r.ingredients ∧
    (process_single_recipe rules dryRun r).1.instructions = r.instructions := by
  unfold process_single_recipe
  dsimp only
  split <;> exact ⟨rfl, rfl, rfl, rfl⟩

theorem process_live_tags (rules : Rules) (r : TagRecipe) :
    (process_single_recipe rules false r).1.tags = tagSteps rules (ingText r) (catText r) r.tags ∧
    (process_single_recipe rules false r).1.cats = catsStep rules (catText r) r.cats ∧
    (process_single_recipe rules false r).1.tools = toolStep rules.tools (instText r) r.tools := by
  unfold process_single_recipe
  dsimp only
  split
  · exact ⟨rfl, rfl, rfl⟩
  · next h =>
    have h' : ¬(tagSteps rules (ingText r) (catText r) r.tags ≠ r.tags
        ∨ catsStep rules (catText r) r.cats ≠ r.cats
        ∨ toolStep rules.tools (instText r) r.tools ≠ r.tools) := by
      intro hc
      exact h (by simp [hc])
    push_neg at h'
    exact ⟨h'.1.symm, h'.2.1.symm, h'.2.2.symm⟩

theorem process_result_spec (rules : Rules) (dryRun : Bool) (r : TagRecipe) :
    (process_single_recipe rules dryRun r).2.tags_added
        = tagSteps rules (ingText r) (catText r) r.tags \ r.tags ∧
    (process_single_recipe rules dryRun r).2.cats_added
        = catsStep rules (catText r) r.cats \ r.cats ∧
    (process_single_recipe rules dryRun r).2.tools_added
        = toolStep rules.tools (instText r) r.tools \ r.tools ∧
    (process_single_recipe rules dryRun r).2.patched
        = (decide (tagSteps rules (ingText r) (catText r) r.tags ≠ r.tags
            ∨ catsStep rules (catText r) r.cats ≠ r.cats
            ∨ toolStep rules.tools (instText r) r.tools ≠ r.tools) && !dryRun) :=
  ⟨rfl, rfl, rfl, rfl⟩

theorem ingText_congr (rules : Rules) (d : Bool) (r : TagRecipe) :
    ingText (process_single_recipe rules d r).1 = ingText r := by
  unfold ingText
  rw [(process_texts_preserved rules d r).2.2.1]

theorem instText_congr (rules : Rules) (d : Bool) (r : TagRecipe) :
    instText (process_single_recipe rules d r).1 = instText r := by
  unfold instText
  rw [(process_texts_preserved rules d r).2.2.2]

theorem catText_congr (rules : Rules) (d : Bool) (r : TagRecipe) :
    catText (process_single_recipe rules d r).1 = catText r := by
  unfold catText
  rw [(process_texts_preserved rules d r).1, (process_texts_preserved rules d r).2.1]

/-- Claim C4: in the Remote strategy the computed tag, category and tool
sets are the union of the matched assignments with the sets the record
already has; a patch is issued iff at least one computed set differs
from the existing one; and a second live run over the unchanged record
issues no patch and adds nothing. -/
theorem C4_remote_union_write_once (rules : Rules) (r : TagRecipe) :
    ((process_single_recipe rules false r).1.tags
        = r.tags ∪ matchedTagNames rules (ingText r) (catText r)
      ∧ (process_single_recipe rules false r).1.cats
        = r.cats ∪ waterfallAssigned rules (catText r) r.cats
      ∧ (process_single_recipe rules false r).1.tools
        = r.tools ∪ matchedToolNames rules (instText r))
    ∧ ((process_single_recipe rules false r).2.patched = true ↔
        ¬(matchedTagNames rules (ingText r) (catText r) ⊆ r.tags
          ∧ waterfallAssigned rules (catText r) r.cats ⊆ r.cats
          ∧ matchedToolNames rules (instText r) ⊆ r.tools))
    ∧ (process_single_recipe rules false
        ((process_single_recipe rules false r).1)).2.patched = false
    ∧ (process_single_recipe rules false
        ((process_single_recipe rules false r).1)).2.tags_added = ∅
    ∧ (process_single_recipe rules false
        ((process_single_recipe rules false r).1)).2.cats_added = ∅
    ∧ (process_single_recipe rules false
        ((process_single_recipe rules false r).1)).2.tools_added = ∅
    ∧ (process_single_recipe rules false
        ((process_single_recipe rules false r).1)).1
      = (process_single_recipe rules false r).1 := by
  obtain ⟨ht, hc, hto⟩ := process_live_tags rules r
  have t1 : tagSteps rules (ingText r) (catText r) r.tags ≠ r.tags ↔
      ¬ matchedTagNames rules (ingText r) (catText r) ⊆ r.tags := by
    rw [tagSteps_eq_union]
    constructor
    · intro hne hsub
      exact hne (Finset.union_eq_left.mpr hsub)
    · intro hns heq
      exact hns (Finset.union_eq_left.mp heq)
  have t2 : catsStep rules (catText r) r.cats ≠ r.cats ↔
      ¬ waterfallAssigned rules (catText r) r.cats ⊆ r.cats := by
    rw [catsStep_eq_union]
    constructor
    · intro hne hsub
      exact hne (Finset.union_eq_left.mpr hsub)
    · intro hns heq
      exact hns (Finset.union_eq_left.mp heq)
  have t3 : toolStep rules.tools (instText r) r.tools ≠ r.tools ↔
      ¬ matchedToolNames rules (instText r) ⊆ r.tools := by
    rw [toolStep_eq_union]
    constructor
    · intro hne hsub
      exact hne (Finset.union_eq_left.mpr hsub)
    · intro hns heq
      exact hns (Finset.union_eq_left.mp heq)
  have hpatch : (process_single_recipe rules false r).2.patched = true ↔
      ¬(matchedTagNames rules (ingText r) (catText r) ⊆ r.tags
        ∧ waterfallAssigned rules (catText r) r.cats ⊆ r.cats
        ∧ matchedToolNames rules (instText r) ⊆ r.tools) := by
    rw [(process_result_spec rules false r).2.2.2]
    simp only [Bool.not_false, Bool.and_true, decide_eq_true_iff]
    rw [t1, t2, t3]
    tauto
  have e1 : tagSteps rules (ingText (process_single_recipe rules false r).1)
      (catText (process_single_recipe rules false r).1)
      (process_single_recipe rules false r).1.tags
      = (process_single_recipe rules false r).1.tags := by
    rw [ingText_congr, catText_congr, ht]
    exact tagSteps_idem rules _ _ _
  have e2 : catsStep rules (catText (process_single_recipe rules false r).1)
      (process_single_recipe rules false r).1.cats
      = (process_single_recipe rules false r).1.cats := by
    rw [catText_congr, hc]
    exact catsStep_idem rules _ _
  have e3 : toolStep rules.tools (instText (process_single_recipe rules false r).1)
      (process_single_recipe rules false r).1.tools
      = (process_single_recipe rules false r).1.tools := by
    rw [instText_congr, hto]
    exact toolStep_idem rules _ _
  have hspec2 := process_result_spec rules false (process_single_recipe rules false r).1
  refine ⟨⟨ht.trans (tagSteps_eq_union rules _ _ _), hc.trans (catsStep_eq_union rules _ _),
      hto.trans (toolStep_eq_union rules _ _)⟩, hpatch, ?_, ?_, ?_, ?_, ?_⟩
  · rw [hspec2.2.2.2]
    simp [e1, e2, e3]
  · rw [hspec2.1, e1, Finset.sdiff_self]
  · rw [hspec2.2.1, e2, Finset.sdiff_self]
  · rw [hspec2.2.2.1, e3, Finset.sdiff_self]
  · have hobs := process_live_tags rules (process_single_recipe rules false r).1
    have hpres := process_texts_preserved rules false (process_single_recipe rules false r).1
    have hp2 : (process_single_recipe rules false
        ((process_single_recipe rules false r).1)).2.patched = false := by
      rw [hspec2.2.2.2]
      simp [e1, e2, e3]
    apply TagRecipe.ext
    · exact hpres.1
    · exact hpres.2.1
    · exact hpres.2.2.1
    · exact hpres.2.2.2
    · exact hobs.1.trans e1
    · exact hobs.2.1.trans e2
    · exact hobs.2.2.trans e3

/-- First-match characterisation of the waterfall loop: a returned
category comes from a rule that matches, and every rule listed before it
does not match. -/
theorem waterfallFirst_eq_some (l : List (String × List String)) (cat c : String)
    (h : waterfallFirst l cat = some c) :
    ∃ kws l1 l2, l = l1 ++ (c, kws) :: l2
      ∧ check_match cat (pyReplaceQuotes (joinBar kws)) none = true
      ∧ ∀ e ∈ l1, check_match cat (pyReplaceQuotes (joinBar e.2)) none = false := by
  induction l with
  | nil => simp [waterfallFirst] at h
  | cons a t ih =>
    by_cases hm : check_match cat (pyReplaceQuotes (joinBar a.2)) none = true
    · rw [waterfallFirst, if_pos hm] at h
      have hac : a.1 = c := by injection h
      refine ⟨a.2, [], t, ?_, hm, by simp⟩
      simp [← hac]
    · rw [waterfallFirst, if_neg hm] at h
      obtain ⟨kws, l1, l2, heq, hmk, hprev⟩ := ih h
      refine ⟨kws, a :: l1, l2, by rw [List.cons_append, heq], hmk, ?_⟩
      intro e he
      rcases List.mem_cons.mp he with rfl | he'
      · exact Bool.not_eq_true _ ▸ Bool.of_not_eq_true hm
      · exact hprev e he'

/-- Claim C6: the category waterfall runs only when the record has zero
existing categories, assigns at most one category, and the one assigned
is the first matching rule of the ordered list — every earlier rule does
not match. -/
theorem C6_waterfall_first_match_only (rules : Rules) (r : TagRecipe) :
    (r.cats ≠ ∅ → (process_single_recipe rules false r).2.cats_added = ∅)
    ∧ ((process_single_recipe rules false r).2.cats_added).card ≤ 1
    ∧ (∀ c, c ∈ (process_single_recipe rules false r).2.cats_added →
        ∃ kws l1 l2, rules.waterfall = l1 ++ (c, kws) :: l2
          ∧ check_match (catText r) (pyReplaceQuotes (joinBar kws)) none = true
          ∧ ∀ e ∈ l1, check_match (catText r) (pyReplaceQuotes (joinBar e.2)) none = false) := by
  have hadd : (process_single_recipe rules false r).2.cats_added
      = catsStep rules (catText r) r.cats \ r.cats :=
    (process_result_spec rules false r).2.1
  by_cases h : r.cats = ∅
  · refine ⟨fun hne => absurd h hne, ?_, ?_⟩
    · rw [hadd]
      unfold catsStep
      rw [if_pos h, h, Finset.sdiff_empty]
      cases waterfallFirst rules.waterfall (catText r) with
      | none => simp
      | some c0 => simp
    · intro c hc
      rw [hadd] at hc
      unfold catsStep at hc
      rw [if_pos h, h, Finset.sdiff_empty] at hc
      cases hw : waterfallFirst rules.waterfall (catText r) with
      | none =>
        rw [hw] at hc
        simp at hc
      | some c0 =>
        rw [hw] at hc
        have hcc : c = c0 := by simpa using hc
        subst hcc
        exact waterfallFirst_eq_some rules.waterfall (catText r) c hw
  · refine ⟨fun _ => ?_, ?_, ?_⟩
    · rw [hadd]
      unfold catsStep
      rw [if_neg h, Finset.sdiff_self]
    · rw [hadd]
      unfold catsStep
      rw [if_neg h, Finset.sdiff_self]
      simp
    · intro c hc
      rw [hadd] at hc
      unfold catsStep at hc
      rw [if_neg h, Finset.sdiff_self] at hc
      simp at hc

/-- No alternative can match beyond the end of the text: the leading
`\b` assertion fails past position `length`. -/
theorem termMatchAt_of_lt (t text : List Char) (i : Nat) (h : text.length + 1 ≤ i) :
    termMatchAt t text i = false := by
  have w1 : wordAt text i = false := by
    unfold wordAt
    rw [List.getD_eq_default _ _ (by omega)]
    rfl
  have w2 : wordAt text (i - 1) = false := by
    unfold wordAt
    rw [List.getD_eq_default _ _ (by omega)]
    rfl
  unfold termMatchAt boundary
  rw [w1, w2]
  simp

/-- Claim C3: matching is word-bounded — when no rule term of the
inclusion alternation occurs in the text with a word boundary on both
sides (in particular when a term occurs only inside a longer word, as
`ham` inside `hamburger`), `check_match` returns `false`; and matching
is case-insensitive, witnessed on the claim's own examples. -/
theorem C3_word_bounded_case_insensitive :
    (∀ (text includeRegex : String) (ex : Option String),
      (∀ t ∈ patternTerms includeRegex, ∀ i < (lowerChars text).length + 1,
        termMatchAt t (lowerChars text) i = false) →
      check_match text includeRegex ex = false)
    ∧ check_match "hamburger" "ham" none = false
    ∧ check_match "chickpea" "chicken" none = false
    ∧ check_match "SMOKED HAM sandwich" "ham" none = true
    ∧ check_match "Chickpea Stew" "chickpea" none = true := by
  refine ⟨?_, by decide, by decide, by decide, by decide⟩
  intro text includeRegex ex h
  have hs : reSearch (patternTerms includeRegex) (lowerChars text) = false := by
    unfold reSearch
    rw [List.any_eq_false]
    intro i hi
    rw [Bool.not_eq_true, List.any_eq_false]
    intro t ht
    have hi' : i < (lowerChars text).length + 1 := by
      simpa using List.mem_range.mp hi
    rw [Bool.not_eq_true]
    exact h t ht i hi'
  unfold check_match
  dsimp only
  rw [hs]
  simp

/-- Witness for C3 at the claim's concrete input: `ham` occurs in
`hamburger` only as a substring of a longer word, and the match
function rejects it. -/
theorem C3_witness : check_match "hamburger" "ham" none = false :=
  C3_word_bounded_case_insensitive.1 "hamburger" "ham" none (by decide)

/-- Counterexample to claim C2: this record has exactly one ingredient
whose text matches the `Japanese` fingerprint (one distinct matching
ingredient identity), yet the tagger assigns the `Japanese` cuisine
Category, because step 3 counts three term occurrences in the joined
ingredient text. -/
theorem C2_counterexample :
    (recipeSingleMiso.ingredients.filter fun p =>
        reSearch (patternTerms japanesePattern) (lowerChars (p.1 ++ " " ++ p.2))).length = 1
    ∧ ("Japanese", japanesePattern) ∈ DEFAULT_CUISINE
    ∧ "Japanese" ∈ (process_single_recipe defaultRules false recipeSingleMiso).2.tags_added := by
  refine ⟨by decide, by decide, by decide⟩

/-- Claim C2 as amended: a cuisine Category is added by step 3 iff the
total occurrence count of its fingerprint terms in the record's joined
ingredient text reaches the hardcoded threshold
`MIN_CUISINE_MATCHES = 3` — occurrences, not distinct matching
ingredient identities, and 3, not 2. -/
theorem C2_occurrence_threshold (fps : List (String × String)) (ing : String)
    (T : Finset String) (c : String) :
    c ∈ cuisineStep fps ing T ↔
      c ∈ T ∨ ∃ pat, (c, pat) ∈ fps
        ∧ MIN_CUISINE_MATCHES ≤ countMatches (patternTerms pat) (lowerChars ing) := by
  rw [mem_cuisineStep]
  constructor
  · rintro (h | ⟨e, he, hd, hf⟩)
    · exact Or.inl h
    · refine Or.inr ⟨e.2, ?_, of_decide_eq_true hd⟩
      rw [← hf]
      exact he
  · rintro (h | ⟨pat, hm, hc⟩)
    · exact Or.inl h
    · exact Or.inr ⟨(c, pat), hm, decide_eq_true hc, rfl⟩

/-!
## Quote doubling in text-tag and waterfall patterns (claim C10)
-/

theorem char_toNat_ofNat_valid (n : Nat) (h : n.isValidChar) : (Char.ofNat n).toNat = n := by
  unfold Char.ofNat
  rw [dif_pos h]
  rfl

/-- Lowercasing maps no character to the apostrophe except the
apostrophe itself. -/
theorem toLower_eq_quote_iff (c : Char) : Char.toLower c = quoteChar ↔ c = quoteChar := by
  constructor
  · intro h
    unfold Char.toLower at h
    dsimp only at h
    split at h
    · next hcond =>
      exfalso
      have hval : Nat.isValidChar (c.toNat + 32) := by
        left
        omega
      have h1 := congrArg Char.toNat h
      rw [char_toNat_ofNat_valid _ hval] at h1
      have h2 : quoteChar.toNat = 39 := by decide
      omega
    · exact h
  · rintro rfl
    decide

theorem hasAdjQuotes_iff (l : List Char) :
    hasAdjQuotes l = true ↔ ∃ l1 l2, l = l1 ++ quoteChar :: quoteChar :: l2 := by
  induction l with
  | nil =>
    simp only [hasAdjQuotes, Bool.false_eq_true, false_iff]
    rintro ⟨l1, l2, h⟩
    cases l1 <;> simp at h
  | cons a t ih =>
    cases t with
    | nil =>
      simp only [hasAdjQuotes, Bool.false_eq_true, false_iff]
      rintro ⟨l1, l2, h⟩
      rcases l1 with _ | ⟨x, xs⟩
      · simp at h
      · rw [List.cons_append] at h
        have := (List.cons.injEq _ _ _ _).mp h
        rcases xs <;> simp at this
    | cons b rest =>
      rw [hasAdjQuotes]
      simp only [Bool.or_eq_true, Bool.and_eq_true, decide_eq_true_eq]
      constructor
      · rintro (⟨rfl, rfl⟩ | h)
        · exact ⟨[], rest, rfl⟩
        · obtain ⟨l1, l2, heq⟩ := ih.mp h
          exact ⟨a :: l1, l2, by rw [List.cons_append, heq]⟩
      · rintro ⟨l1, l2, heq⟩
        rcases l1 with _ | ⟨x, xs⟩
        · simp only [List.nil_append] at heq
          obtain ⟨rfl, h2⟩ := (List.cons.injEq _ _ _ _).mp heq
          obtain ⟨rfl, _⟩ := (List.cons.injEq _ _ _ _).mp h2
          exact Or.inl ⟨rfl, rfl⟩
        · rw [List.cons_append] at heq
          obtain ⟨rfl, h2⟩ := (List.cons.injEq _ _ _ _).mp heq
          exact Or.inr (ih.mpr ⟨xs, l2, h2⟩)

/-- Case-normalisation neither creates nor destroys doubled
apostrophes. -/
theorem hasAdjQuotes_map_toLower (l : List Char) :
    hasAdjQuotes (l.map Char.toLower) = hasAdjQuotes l := by
  induction l with
  | nil => rfl
  | cons a t ih =>
    cases t with
    | nil => rfl
    | cons b rest =>
      simp only [List.map_cons] at ih ⊢
      rw [hasAdjQuotes, hasAdjQuotes, ih]
      congr 1
      have ha := toLower_eq_quote_iff a
      have hb := toLower_eq_quote_iff b
      by_cases h1 : a = quoteChar <;> by_cases h2 : b = quoteChar <;>
        simp [h1, h2, ha, hb, show Char.toLower quoteChar = quoteChar from by decide]

/-- Doubling an apostrophe-containing keyword produces a doubled
apostrophe. -/
theorem hasAdjQuotes_doubleQuotes (k : List Char) (h : quoteChar ∈ k) :
    hasAdjQuotes (doubleQuotesChars k) = true := by
  induction k with
  | nil => simp at h
  | cons c cs ih =>
    rw [doubleQuotesChars]
    by_cases hc : c = quoteChar
    · rw [if_pos hc, hc]
      rw [hasAdjQuotes]
      simp
    · rw [if_neg hc]
      have hmem : quoteChar ∈ cs := by
        rcases List.mem_cons.mp h with h' | h'
        · exact absurd h'.symm hc
        · exact h'
      have htail := ih hmem
      cases hdq : doubleQuotesChars cs with
      | nil => rw [hdq] at htail; simp [hasAdjQuotes] at htail
      | cons d ds =>
        rw [hdq] at htail
        rw [hasAdjQuotes, htail]
        simp

/-- A slice match exhibits the term as an infix of the text. -/
theorem sublistAt_infix (t text : List Char) (i : Nat) (h : sublistAt t text i = true) :
    ∃ s u, text = s ++ t ++ u := by
  have heq : (text.drop i).take t.length = t := of_decide_eq_true h
  refine ⟨text.take i, (text.drop i).drop t.length, ?_⟩
  conv_lhs => rw [← List.take_append_drop i text, ← List.take_append_drop t.length (text.drop i)]
  rw [heq, List.append_assoc]

/-- An infix with a doubled apostrophe forces one in the whole text. -/
theorem hasAdjQuotes_of_infix (t s u : List Char) (h : hasAdjQuotes t = true) :
    hasAdjQuotes (s ++ t ++ u) = true := by
  obtain ⟨l1, l2, rfl⟩ := (hasAdjQuotes_iff t).mp h
  refine (hasAdjQuotes_iff _).mpr ⟨s ++ l1, l2 ++ u, ?_⟩
  simp

/-- Claim C10: the text-tag and waterfall keyword chains have every
single quote doubled (`''`) before the alternation is compiled, so a
keyword containing an apostrophe can never match a text that has no
doubled apostrophe — in particular a record containing the keyword
verbatim.  Concretely, the doubled `bird's eye` term of the default
`Extra Spicy` rule fails on a name containing `bird's eye`, and the
recipe does not receive the tag. -/
theorem C10_quote_doubling_blocks_verbatim_keywords :
    (∀ (k text : String) (i : Nat), quoteChar ∈ k.data →
      hasAdjQuotes text.data = false →
      termMatchAt (lowerChars (pyReplaceQuotes k)) (lowerChars text) i = false)
    ∧ (DEFAULT_TEXT.any fun e =>
        decide (e.1 = "Extra Spicy") && e.2.any fun k => decide (k = "bird\x27s eye")) = true
    ∧ reSearch [lowerChars (pyReplaceQuotes "bird\x27s eye")]
        (lowerChars "Thai Bird\x27s Eye Chili Noodles") = false
    ∧ "Extra Spicy" ∉ (process_single_recipe defaultRules false recipeBird).2.tags_added := by
  refine ⟨?_, by decide, by decide, by decide⟩
  intro k text i hk htext
  cases hm : termMatchAt (lowerChars (pyReplaceQuotes k)) (lowerChars text) i with
  | false => rfl
  | true =>
    exfalso
    have hsub : sublistAt (lowerChars (pyReplaceQuotes k)) (lowerChars text) i = true := by
      unfold termMatchAt at hm
      simp only [Bool.and_eq_true] at hm
      exact hm.1.1
    obtain ⟨s, u, hinfx⟩ := sublistAt_infix _ _ _ hsub
    have hterm : hasAdjQuotes (lowerChars (pyReplaceQuotes k)) = true := by
      show hasAdjQuotes ((doubleQuotesChars k.data).map Char.toLower) = true
      rw [hasAdjQuotes_map_toLower]
      exact hasAdjQuotes_doubleQuotes k.data hk
    have hall : hasAdjQuotes (lowerChars text) = true := by
      rw [hinfx]
      exact hasAdjQuotes_of_infix _ s u hterm
    rw [show lowerChars text = text.data.map Char.toLower from rfl,
      hasAdjQuotes_map_toLower] at hall
    rw [hall] at htext
    exact Bool.noConfusion htext

/-- Witness for C10 at a concrete keyword and text: the doubled
`shepherd's pie` term never matches a name containing the single-quoted
original. -/
theorem C10_witness :
    termMatchAt (lowerChars (pyReplaceQuotes "shepherd\x27s pie"))
      (lowerChars "Classic Shepherd\x27s Pie") 8 = false :=
  C10_quote_doubling_blocks_verbatim_keywords.1 "shepherd\x27s pie"
    "Classic Shepherd\x27s Pie" 8 (by decide) (by decide)

/-- Witness for C6: a record with a pre-existing category receives no
waterfall category even though a waterfall rule matches its name. -/
theorem C6_witness :
    (process_single_recipe rulesSmall false recipeWithCat).2.cats_added = ∅ :=
  (C6_waterfall_first_match_only rulesSmall recipeWithCat).1 (by decide)

theorem list_any_congr {α : Type} (l : List α) (p q : α → Bool)
    (h : ∀ a ∈ l, p a = q a) : l.any p = l.any q := by
  induction l with
  | nil => rfl
  | cons a t ih =>
    rw [List.any_cons, List.any_cons, h a (List.mem_cons_self a t),
      ih fun b hb => h b (List.mem_cons_of_mem a hb)]

/-- If some position of the text carries a word character then some
position carries a `\b` boundary, and conversely. -/
theorem range_any_boundary (l : List Char) :
    ((List.range (l.length + 1)).any fun i => boundary l i) = l.any isWordChar := by
  induction l with
  | nil => rfl
  | cons c cs ih =>
    cases hc : isWordChar c with
    | true =>
      have hb : boundary (c :: cs) 0 = true := by
        unfold boundary wordAt
        simpa using hc
      have hl : (0 : Nat) ∈ List.range ((c :: cs).length + 1) := by
        simp
      rw [List.any_cons, hc, Bool.true_or]
      exact List.any_eq_true.mpr ⟨0, hl, hb⟩
    | false =>
      rw [List.any_cons, hc, Bool.false_or, ← ih]
      cases hcs : (List.range (cs.length + 1)).any fun i => boundary cs i with
      | true =>
        obtain ⟨i, hi, hb⟩ := List.any_eq_true.mp hcs
        have hi' : i < cs.length + 1 := by simpa using List.mem_range.mp hi
        apply List.any_eq_true.mpr
        refine ⟨i + 1, by simp; omega, ?_⟩
        unfold boundary wordAt at hb ⊢
        cases i with
        | zero =>
          simpa [hc] using hb
        | succ j =>
          simpa using hb
      | false =>
        rw [List.any_eq_false]
        intro i hi
        rw [Bool.not_eq_true]
        have hi' : i < cs.length + 2 := by simpa using List.mem_range.mp hi
        cases i with
        | zero =>
          unfold boundary wordAt
          simpa using hc
        | succ j =>
          have hj : j ∈ List.range (cs.length + 1) := by
            simp
            omega
          have hbj := List.any_eq_false.mp hcs j hj
          rw [Bool.not_eq_true] at hbj
          unfold boundary wordAt at hbj ⊢
          cases j with
          | zero =>
            simpa [hc] using hbj
          | succ m =>
            simpa using hbj

/-- The empty alternative matches at `i` exactly where a boundary
holds. -/
theorem termMatchAt_nil (lt : List Char) (i : Nat) :
    termMatchAt [] lt i = boundary lt i := by
  unfold termMatchAt sublistAt
  simp

/-- Counterexample to claim C8: a config entry with an empty inclusion
expression is loaded unchanged, and the resulting rule fires on a plain
record whose text contains word characters — the empty inclusion
compiles to `\b()\b`, which matches any text with a word character. -/
theorem C8_counterexample :
    (loadRules cfgEmptyRule).textTags = [("Mystery", [""])]
    ∧ check_match "abc" "" none = true
    ∧ "Mystery" ∈ (process_single_recipe (loadRules cfgEmptyRule) false recipeAbc).2.tags_added := by
  refine ⟨rfl, by decide, by decide⟩

/-- Claim C8 as amended: rule-catalog loading performs no validation —
a supplied collection is adopted verbatim, empty inclusion expressions
included — and a rule with an empty inclusion expression fires on
exactly the texts containing at least one word character. -/
theorem C8_no_validation_empty_matches_word (cfg : Config)
    (tt : List (String × List String)) (h : cfg.text_tags = some tt) :
    (loadRules cfg).textTags = tt
    ∧ ∀ text : String, check_match text "" none = (lowerChars text).any isWordChar := by
  refine ⟨by rw [loadRules, h]; rfl, ?_⟩
  intro text
  have hterms : patternTerms "" = [[]] := rfl
  have hres : reSearch [[]] (lowerChars text) = (lowerChars text).any isWordChar := by
    unfold reSearch
    calc ((List.range ((lowerChars text).length + 1)).any fun i =>
            [List.nil].any fun t => termMatchAt t (lowerChars text) i)
        = ((List.range ((lowerChars text).length + 1)).any fun i =>
            boundary (lowerChars text) i) := by
          apply list_any_congr
          intro i _
          rw [List.any_cons, List.any_nil, Bool.or_false, termMatchAt_nil]
      _ = (lowerChars text).any isWordChar := range_any_boundary (lowerChars text)
  unfold check_match
  dsimp only
  rw [hterms, hres]
  cases h : (lowerChars text).any isWordChar <;> simp [h]

/-- Witness for C8's amended statement at a concrete config and text:
the empty-inclusion rule is kept and matches `abc`. -/
theorem C8_witness :
    (loadRules cfgEmptyRule).textTags = [("Mystery", [""])]
    ∧ check_match "abc" "" none = (lowerChars "abc").any isWordChar :=
  ⟨(C8_no_validation_empty_matches_word cfgEmptyRule [("Mystery", [""])] rfl).1,
    (C8_no_validation_empty_matches_word cfgEmptyRule [("Mystery", [""])] rfl).2 "abc"⟩

/-- Counterexample to claim C1: on the same record set the API
strategy flags `r1` as broken while the single-query DB strategy puts
`r1` in the verified set and returns an empty broken list — the SQL
test `text != ''` accepts a whitespace-only instruction that
`validate_instructions` rejects via `strip()`. -/
theorem C1_counterexample :
    check_integrity ∅ recipeWhitespaceInst = .broken "r1" "R1"
    ∧ (check_integrity_via_db ∅ [recipeWhitespaceInst] {"r1"}).1 = []
    ∧ (check_integrity_via_db ∅ [recipeWhitespaceInst] {"r1"}).2 = {"r1"} := by
  refine ⟨by decide, by decide, by decide⟩

/-- On records without whitespace-only instruction texts, row validity
agrees between the API test (`strip()` non-empty) and the SQL test
(`!= ''`). -/
theorem validate_eq_not_dbBroken (r : CleanRecipe)
    (h : ∀ t ∈ r.instructions,
      t.getD "" = "" ∨ (t.getD "").data.any (fun c => !c.isWhitespace) = true) :
    validate_instructions (.steps r.instructions) = !dbBroken r := by
  unfold validate_instructions dbBroken
  cases hrows : r.instructions with
  | nil => rfl
  | cons a t =>
    rw [hrows] at h
    simp only [List.isEmpty_cons, Bool.false_eq_true, if_false, Bool.false_or, Bool.not_not]
    apply list_any_congr
    intro x hx
    rcases h x hx with h1 | h2
    · cases x with
      | none => rfl
      | some s =>
        simp only [Option.getD_some] at h1
        subst h1
        rfl
    · cases x with
      | none => simp at h2
      | some s =>
        simp only [Option.getD_some] at h2
        show (s.data.any fun c => !c.isWhitespace) = !(s == "")
        rw [h2]
        have hs : s ≠ "" := by
          intro hs
          subst hs
          simp at h2
        have hb : (s == "") = false := by simpa using hs
        rw [hb]
        rfl

theorem check_integrity_eq_broken_iff (v : Finset String) (r : CleanRecipe) :
    check_integrity v r = .broken r.slug r.name ↔
      r.slug ∉ v ∧ validate_instructions (.steps r.instructions) = false := by
  unfold check_integrity
  split_ifs with h1 h2
  · simp [h1]
  · simp [h1, h2]
  · simp [h1, h2]

theorem check_integrity_eq_verified_iff (v : Finset String) (r : CleanRecipe) :
    check_integrity v r = .verifiedMark r.slug ↔
      r.slug ∉ v ∧ validate_instructions (.steps r.instructions) = true := by
  unfold check_integrity
  split_ifs with h1 h2
  · simp [h1]
  · simp [h1, h2]
  · simp [h1, h2]

/-- Claim C1 as amended: over a record set in which no instruction text
is whitespace-only-but-non-empty (each text is null, empty, or has a
non-whitespace character) and slugs are distinct, the Remote (per-record
API) and Bulk (single-query DB) integrity strategies mark exactly the
same recipes: the DB broken list is precisely the recipes the API check
flags broken, and both runs leave the same final verified set. -/
theorem C1_strategies_agree (verified : Finset String) (recs : List CleanRecipe)
    (hws : ∀ r ∈ recs, ∀ t ∈ r.instructions,
      t.getD "" = "" ∨ (t.getD "").data.any (fun c => !c.isWhitespace) = true)
    (hnd : (recs.map CleanRecipe.slug).Nodup) :
    (check_integrity_via_db verified recs ((recs.map CleanRecipe.slug).toFinset)).1
      = (recs.filter fun r =>
          decide (check_integrity verified r = .broken r.slug r.name)).map
        (fun r => (r.slug, r.name))
    ∧ verified ∪ (check_integrity_via_db verified recs ((recs.map CleanRecipe.slug).toFinset)).2
      = verified ∪ ((recs.filter fun r =>
          decide (check_integrity verified r = .verifiedMark r.slug)).map
        CleanRecipe.slug).toFinset := by
  constructor
  · unfold check_integrity_via_db
    dsimp only
    rw [List.filter_filter]
    congr 1
    apply List.filter_congr
    intro r hr
    have hall : decide (r.slug ∈ (recs.map CleanRecipe.slug).toFinset) = true := by
      rw [decide_eq_true_eq, List.mem_toFinset, List.mem_map]
      exact ⟨r, hr, rfl⟩
    have hvld := validate_eq_not_dbBroken r (hws r hr)
    by_cases hvm : r.slug ∈ verified
    · have hdv : decide (r.slug ∈ verified) = true := decide_eq_true hvm
      have hrhs : check_integrity verified r = .skipped := by
        unfold check_integrity
        rw [if_pos hvm]
      rw [hdv, hrhs]
      simp
    · have hdv : decide (r.slug ∈ verified) = false := decide_eq_false hvm
      cases hdb : dbBroken r with
      | true =>
        have hrhs : check_integrity verified r = .broken r.slug r.name := by
          rw [check_integrity_eq_broken_iff]
          refine ⟨hvm, ?_⟩
          rw [hvld, hdb]
          rfl
        rw [hdv, hall, hrhs]
        simp
      | false =>
        have hrhs : check_integrity verified r = .verifiedMark r.slug := by
          rw [check_integrity_eq_verified_iff]
          refine ⟨hvm, ?_⟩
          rw [hvld, hdb]
          rfl
        rw [hdv, hall, hrhs]
        simp
  · unfold check_integrity_via_db
    dsimp only
    ext x
    simp only [Finset.mem_union, Finset.mem_sdiff, List.mem_toFinset, List.mem_map,
      List.mem_filter]
    by_cases hv : x ∈ verified
    · simp [hv]
    · simp only [hv, false_or]
      constructor
      · rintro ⟨⟨r, hr, rfl⟩, hnb⟩
        refine ⟨r, ⟨hr, ?_⟩, rfl⟩
        rw [decide_eq_true_eq, check_integrity_eq_verified_iff]
        refine ⟨hv, ?_⟩
        rw [validate_eq_not_dbBroken r (hws r hr)]
        cases hdb : dbBroken r with
        | false => rfl
        | true => exact absurd ⟨r, ⟨hr, hdb⟩, rfl⟩ hnb
      · rintro ⟨r, ⟨hr, hcheck⟩, rfl⟩
        rw [decide_eq_true_eq, check_integrity_eq_verified_iff] at hcheck
        obtain ⟨hnv, hval⟩ := hcheck
        rw [validate_eq_not_dbBroken r (hws r hr)] at hval
        have hdbf : dbBroken r = false := by
          cases hdb : dbBroken r with
          | false => rfl
          | true =>
            rw [hdb] at hval
            exact absurd hval (by decide)
        refine ⟨⟨r, hr, rfl⟩, ?_⟩
        rintro ⟨r', ⟨hr', hdb'⟩, hslug⟩
        have heq : r' = r := List.inj_on_of_nodup_map hnd hr' hr hslug
        rw [heq, hdbf] at hdb'
        exact Bool.noConfusion hdb'

/-- Witness for C1's amended statement at a concrete record set: one
valid recipe and one with no instruction rows, where both strategies
agree. -/
theorem C1_witness :
    (check_integrity_via_db ∅ [⟨"a", "A", [some "Mix well"]⟩, ⟨"b", "B", []⟩]
        (([⟨"a", "A", [some "Mix well"]⟩,
          (⟨"b", "B", []⟩ : CleanRecipe)].map CleanRecipe.slug).toFinset)).1
      = ([⟨"a", "A", [some "Mix well"]⟩, ⟨"b", "B", []⟩].filter fun r =>
          decide (check_integrity ∅ r = .broken r.slug r.name)).map
        (fun r => (r.slug, r.name)) :=
  (C1_strategies_agree ∅ [⟨"a", "A", [some "Mix well"]⟩, ⟨"b", "B", []⟩]
    (by decide) (by decide)).1

/-- Counterexample to claim C7: in dry-run mode `delete_recipe` leaves
the reject and verified sets untouched, while a live run adds the URL
to the rejects and discards the slug from the verified set — the local
run-state sets are not updated as in a live run. -/
theorem C7_counterexample :
    (delete_recipe true ⟨∅, {"s1"}, []⟩ "s1" "Junk" "JUNK CONTENT" (some "u")).1.rejects = ∅
    ∧ (delete_recipe true ⟨∅, {"s1"}, []⟩ "s1" "Junk" "JUNK CONTENT" (some "u")).1.verified
      = {"s1"}
    ∧ (delete_recipe false ⟨∅, {"s1"}, []⟩ "s1" "Junk" "JUNK CONTENT" (some "u")).1.rejects
      = {"u"}
    ∧ (delete_recipe false ⟨∅, {"s1"}, []⟩ "s1" "Junk" "JUNK CONTENT" (some "u")).1.verified
      = ∅ := by
  refine ⟨rfl, rfl, by decide, by decide⟩

/-- Claim C7 as amended: in dry-run mode no mutating call is made — no
HTTP DELETE from `delete_recipe` and no PATCH from
`process_single_recipe`, whose record is returned unchanged — and the
deletion routine also skips its reject/verified updates, leaving those
sets exactly as they were (only the flagged report row is still
appended). -/
theorem C7_dry_run_frame (st : CleanerState) (slug name reason : String)
    (url : Option String) (rules : Rules) (r : TagRecipe) :
    (delete_recipe true st slug name reason url).2 = false
    ∧ (delete_recipe true st slug name reason url).1.rejects = st.rejects
    ∧ (delete_recipe true st slug name reason url).1.verified = st.verified
    ∧ (delete_recipe true st slug name reason url).1.flagged
      = st.flagged ++ [(name, reason, url.getD "")]
    ∧ (process_single_recipe rules true r).2.patched = false
    ∧ (process_single_recipe rules true r).1 = r := by
  refine ⟨rfl, rfl, rfl, rfl, ?_, ?_⟩
  · rw [(process_result_spec rules true r).2.2.2]
    simp
  · unfold process_single_recipe
    dsimp only
    rw [if_neg]
    simp

/-- Claim C9: saving a set of identifiers and reloading reproduces the
same set; a missing state file loads as the empty set without a
warning, and a corrupt one as the empty set with a warning; both
loaders are total functions, so no input raises or aborts. -/
theorem C9_state_file_roundtrip :
    (∀ s : Finset String, load_json_set (save_json_set s) = (s, false))
    ∧ load_json_set .missing = (∅, false)
    ∧ load_json_set .corrupt = (∅, true)
    ∧ (∀ s : Finset String, load_history (save_json_set s) = (s, false))
    ∧ load_history .missing = (∅, false)
    ∧ load_history .corrupt = (∅, true) := by
  refine ⟨?_, rfl, rfl, ?_, rfl, rfl⟩
  · intro s
    show ((s.sort (· ≤ ·)).toFinset, false) = (s, false)
    rw [Finset.sort_toFinset]
  · intro s
    show ((s.sort (· ≤ ·)).toFinset, false) = (s, false)
    rw [Finset.sort_toFinset]

/-- Claim C5: the slug derivation is a pure deterministic function of
the name with the documented behaviour on the claim's examples; calling
it twice on the same name yields the same slug. -/
theorem C5_slug_pure_deterministic :
    _make_slug "Blue & Funky" = "blue-and-funky"
    ∧ _make_slug "Lamb/Goat" = "lamb-goat"
    ∧ _make_slug "Hello World" = "hello-world"
    ∧ _make_slug "Air Fryer" = "air-fryer"
    ∧ ∀ s : String, _make_slug s = _make_slug s := by
  exact ⟨by decide, by decide, by decide, by decide, fun s => rfl⟩

end KitchenOps

